import Mathlib

set_option autoImplicit false

/-!
Shallow embedding of `packages/nextjs/src/config/wrappers/utils/responseEnd.ts` and of
the rewrite step of `dev-packages/node-integration-tests/scripts/use-ts-3_8.js`.

The response-end module runs on a single-threaded event loop.  We model one
invocation of the instrumented code as the list of observable events it emits
(`Ev`), split into the synchronous phase and the callbacks it leaves in the
`setImmediate` queue (`Job`), which a later loop turn drains in FIFO order.
-/

/-- Observable events of the response-end machinery. `setStatus code` is
`transaction.setHttpStatus(code)`, `complete` is `transaction.finish()`,
`resolveFinish` marks the resolution of the promise returned by
`finishTransaction`, `flushCall t` is a call of the external `flush(t)`
capability, `logMsg` is a `logger.log` call, and `ext n` is an opaque external
side effect (of the original `res.end` or of some other queued callback). -/
inductive Ev where
  | setStatus (code : Nat)
  | complete
  | resolveFinish
  | flushCall (timeoutMs : Nat)
  | logMsg (msg : String)
  | ext (n : Nat)
  deriving DecidableEq, Repr

/-- Callbacks sitting in the `setImmediate` queue, defunctionalised. `finishJob` is
the callback registered by `finishTransaction`, which runs `transaction.finish()`
and then resolves the awaited promise; `extJob n` is any other already-queued
callback, with opaque behaviour. -/
inductive Job where
  | finishJob
  | extJob (n : Nat)
  deriving DecidableEq, Repr

/-- Runs one `setImmediate` callback, yielding the events it emits.  The callback
registered by `finishTransaction` calls `transaction.finish()` and then
`resolve()`; the `await` in `finishTransaction` resumes right after the callback
returns, recorded as `resolveFinish` directly after `complete`. -/
def runJob : Job → List Ev
  | Job.finishJob => [Ev.complete, Ev.resolveFinish]
  | Job.extJob n => [Ev.ext n]

/-- Drains the `setImmediate` queue in FIFO order (Node runs check-phase callbacks
in registration order). -/
def runLoop : List Job → List Ev
  | [] => []
  | j :: js => runJob j ++ runLoop js

/-- A tracing transaction handle is opaque to this module; only the events of its
two methods are observable, so a single token stands for it. -/
abbrev Transaction := Unit

/-- Result of running an async function up to its first real suspension: the events
it emits synchronously, the `setImmediate` callbacks it registers, and whether its
promise is already resolved when the synchronous phase ends (that is, without
waiting on any registered callback). -/
structure AsyncRun where
  syncTrace : List Ev
  pending : List Job
  resolvedSync : Bool
  deriving DecidableEq, Repr

/-- Shallow embedding of `finishTransaction` (responseEnd.ts, lines 40-56).  With no
transaction it returns at once with no effect.  With a transaction it
synchronously calls `transaction.setHttpStatus(res.statusCode)`, registers a
`setImmediate` callback that calls `transaction.finish()` and resolves, and then
awaits that callback, so its promise is not resolved synchronously. -/
def finishTransaction : Option Transaction → Nat → AsyncRun
  | none, _ => ⟨[], [], true⟩
  | some _, statusCode => ⟨[Ev.setStatus statusCode], [Job.finishJob], false⟩

/-- Behaviour of an original, unwrapped `res.end` method: from the argument list it
yields the identifiers of the opaque external side effects it performs
synchronously and its return value.  The response object is an external
collaborator, so its own `end` never touches the tracing handle. -/
structure OrigEnd where
  run : List Nat → List Nat × Nat

/-- Events emitted by the original `end` method on a given argument list. -/
def origTrace (e : OrigEnd) (args : List Nat) : List Ev :=
  ((e.run args).1).map Ev.ext

/-- Observable outcome of one synchronous invocation of an `end` method: the events
run during the call, the value returned to the caller, and the `setImmediate`
callbacks left behind for later loop turns. -/
structure CallResult where
  trace : List Ev
  ret : Nat
  scheduled : List Job
  deriving Repr

/-- Shallow embedding of `sentryWrappedEnd` (responseEnd.ts, lines 27-30): it fires
`finishTransaction(transaction, this)` without awaiting it (the `void` call), so
only the synchronous part of `finishTransaction` runs now and its callback stays
pending; it then calls `origEnd.call(this, ...args)` and returns that result. -/
def sentryWrappedEnd (transaction : Option Transaction) (origEnd : OrigEnd)
    (statusCode : Nat) (args : List Nat) : CallResult :=
  let ft := finishTransaction transaction statusCode
  ⟨ft.syncTrace ++ origTrace origEnd args, (origEnd.run args).2, ft.pending⟩

/-- The `end` slot of a response: either still the original method (no Wrap Marker),
or the sentry-wrapped method, which carries the Wrap Marker
`__sentry_original__` together with the captured transaction and original. -/
inductive EndSlot where
  | plain (e : OrigEnd)
  | wrapped (transaction : Option Transaction) (e : OrigEnd)

/-- Modelled from the spec: `fill` comes from `@sentry/utils`, whose source is not
part of this repository snapshot; per the spec it replaces the finish operation
with the wrapped version built from the original and sets the Wrap Marker on the
replacement. -/
def fill (transaction : Option Transaction) (e : OrigEnd) : EndSlot :=
  EndSlot.wrapped transaction e

/-- A server response as this module sees it: a status code and an `end` slot. -/
structure ServerResponse where
  statusCode : Nat
  resEnd : EndSlot

/-- Whether the Wrap Marker (`__sentry_original__`) is set on the `end` slot. -/
def EndSlot.isWrapped : EndSlot → Bool
  | EndSlot.plain _ => false
  | EndSlot.wrapped _ _ => true

/-- Shallow embedding of `autoEndTransactionOnResponseEnd` (responseEnd.ts, lines
25-37): if the Wrap Marker is already set on `res.end` it does nothing, otherwise
it fills the `end` slot with the wrapped method. -/
def autoEndTransactionOnResponseEnd (transaction : Option Transaction)
    (res : ServerResponse) : ServerResponse :=
  match res.resEnd with
  | EndSlot.plain e => { res with resEnd := fill transaction e }
  | EndSlot.wrapped _ _ => res

/-- Invokes the current `end` method of the response with the given arguments. -/
def callEnd (res : ServerResponse) (args : List Nat) : CallResult :=
  match res.resEnd with
  | EndSlot.plain e => ⟨origTrace e args, (e.run args).2, []⟩
  | EndSlot.wrapped t e => sentryWrappedEnd t e res.statusCode args

/-- Events of a complete run: the synchronous call of `end` followed by draining the
`setImmediate` queue it left behind. -/
def fullCallTrace (res : ServerResponse) (args : List Nat) : List Ev :=
  (callEnd res args).trace ++ runLoop (callEnd res args).scheduled

/-- Full observable run of `finishTransaction` alone: its synchronous events
followed by the deferred callback it registered. -/
def finishTraceFull (t : Option Transaction) (code : Nat) : List Ev :=
  (finishTransaction t code).syncTrace ++ runLoop (finishTransaction t code).pending

/-- Possible behaviours of the external `flush(2000)` capability: it resolves with a
boolean, or it rejects / times out with some error, identified by a number. -/
inductive FlushOutcome where
  | ok (sent : Bool)
  | err (e : Nat)
  deriving DecidableEq, Repr

/-- Shallow embedding of `flushQueue` (responseEnd.ts, lines 59-67), parametrised by
the `__DEBUG_BUILD__` flag and the behaviour of the external flush capability.
It yields the emitted events and its own outcome: `Except.ok ()` when it
resolves, `Except.error e` if it would reject or throw.  A rejection of
`flush(2000)` skips the success log and lands in the catch block, which logs the
error only under the debug flag and swallows it. -/
def flushQueue (debug : Bool) (cap : FlushOutcome) : List Ev × Except Nat Unit :=
  let pre := if debug then [Ev.logMsg "Flushing events..."] else []
  match cap with
  | FlushOutcome.ok _ =>
      (pre ++ [Ev.flushCall 2000]
          ++ (if debug then [Ev.logMsg "Done flushing events"] else []),
        Except.ok ())
  | FlushOutcome.err _ =>
      (pre ++ [Ev.flushCall 2000]
          ++ (if debug then [Ev.logMsg "Error while flushing events:"] else []),
        Except.ok ())

/-- Events that touch the tracing handle, the flush capability or the logger;
`Ev.ext` events are the external, non-tracing side effects. -/
def isTracingEv : Ev → Bool
  | Ev.ext _ => false
  | _ => true

/-- Recognises invocations of the external flush capability. -/
def isFlushCall : Ev → Bool
  | Ev.flushCall _ => true
  | _ => false

/-- Recognises logger calls. -/
def isLog : Ev → Bool
  | Ev.logMsg _ => true
  | _ => false

/-- Decides whether the first occurrence of `a` in a trace comes strictly before the
first occurrence of `b`, both occurring. -/
def occursBefore (a b : Ev) : List Ev → Bool
  | [] => false
  | e :: tr => if e = b then false else if e = a then tr.contains b else occursBefore a b tr

theorem runLoop_append (xs ys : List Job) :
    runLoop (xs ++ ys) = runLoop xs ++ runLoop ys := by
  induction xs with
  | nil => rfl
  | cons j js ih => simp [runLoop, ih]

theorem origTrace_filter_not_tracing (e : OrigEnd) (args : List Nat) :
    (origTrace e args).filter (fun ev => !(isTracingEv ev)) = origTrace e args := by
  unfold origTrace
  induction (e.run args).1 with
  | nil => rfl
  | cons n ns ih => simp [isTracingEv]

theorem origTrace_all_not_tracing (e : OrigEnd) (args : List Nat) :
    (origTrace e args).all (fun ev => !(isTracingEv ev)) = true := by
  unfold origTrace
  induction (e.run args).1 with
  | nil => rfl
  | cons n ns ih => simp [isTracingEv]

theorem origTrace_filter_flushCall (e : OrigEnd) (args : List Nat) :
    (origTrace e args).filter isFlushCall = [] := by
  unfold origTrace
  induction (e.run args).1 with
  | nil => rfl
  | cons n ns ih => simp [isFlushCall]

theorem origTrace_not_mem_complete (e : OrigEnd) (args : List Nat) :
    Ev.complete ∉ origTrace e args := by
  unfold origTrace
  intro h
  rcases List.mem_map.mp h with ⟨n, _, hn⟩
  exact Ev.noConfusion hn

/-- JSON values as loaded by `require(baseTscConfigPath)` in use-ts-3_8.js; objects
keep their keys in insertion order, matching what `JSON.stringify` writes back. -/
inductive Json where
  | null
  | bool (b : Bool)
  | num (n : Int)
  | str (s : String)
  | arr (xs : List Json)
  | obj (kvs : List (String × Json))

/-- Property lookup on the key-value list of a JSON object. -/
def lookupKey : List (String × Json) → String → Option Json
  | [], _ => none
  | (k', v) :: kvs, k => if k' = k then some v else lookupKey kvs k

/-- Effect of the `delete o[k]` statement on a JSON object: the binding for `k`
disappears and all other bindings stay, in order. -/
def deleteKey : List (String × Json) → String → List (String × Json)
  | [], _ => []
  | (k', v) :: kvs, k =>
      if k' = k then deleteKey kvs k else (k', v) :: deleteKey kvs k

/-- Replaces the value bound to `k`, keeping the key order of the object.  The
script mutates `tsConfig.compilerOptions` in place, so the outer object is
unchanged except for the value sitting under that one key. -/
def setKey : List (String × Json) → String → Json → List (String × Json)
  | [], _, _ => []
  | (k', v) :: kvs, k, w =>
      if k' = k then (k', w) :: setKey kvs k w else (k', v) :: setKey kvs k w

/-- Shallow embedding of the rewrite step of use-ts-3_8.js (lines 19-26): the
`noUncheckedIndexedAccess` entry of the loaded `compilerOptions` object is
deleted in place and the whole configuration is written back.  The `none` result
models the script crashing because the loaded configuration has no
`compilerOptions` object to delete from. -/
def useTs38Rewrite : Json → Option Json
  | Json.obj kvs =>
      match lookupKey kvs "compilerOptions" with
      | some (Json.obj co) =>
          some (Json.obj (setKey kvs "compilerOptions"
            (Json.obj (deleteKey co "noUncheckedIndexedAccess"))))
      | _ => none
  | _ => none

theorem lookupKey_deleteKey_self (kvs : List (String × Json)) (k : String) :
    lookupKey (deleteKey kvs k) k = none := by
  induction kvs with
  | nil => rfl
  | cons p kvs ih =>
      by_cases h : p.1 = k
      · simp [deleteKey, h, ih]
      · simp [deleteKey, lookupKey, h, ih]

theorem lookupKey_deleteKey_ne (kvs : List (String × Json)) (k k' : String)
    (hne : k' ≠ k) : lookupKey (deleteKey kvs k) k' = lookupKey kvs k' := by
  have hk : k ≠ k' := fun hc => hne hc.symm
  induction kvs with
  | nil => rfl
  | cons p kvs ih =>
      by_cases h : p.1 = k
      · simp [deleteKey, lookupKey, h, hk, ih]
      · by_cases h2 : p.1 = k'
        · simp [deleteKey, lookupKey, h, h2, hne]
        · simp [deleteKey, lookupKey, h, h2, ih]

theorem lookupKey_setKey_ne (kvs : List (String × Json)) (k k' : String) (w : Json)
    (hne : k' ≠ k) : lookupKey (setKey kvs k w) k' = lookupKey kvs k' := by
  have hk : k ≠ k' := fun hc => hne hc.symm
  induction kvs with
  | nil => rfl
  | cons p kvs ih =>
      by_cases h : p.1 = k
      · simp [setKey, lookupKey, h, hk, ih]
      · by_cases h2 : p.1 = k'
        · simp [setKey, lookupKey, h, h2, hne]
        · simp [setKey, lookupKey, h, h2, ih]

theorem lookupKey_setKey_self (kvs : List (String × Json)) (k : String)
    (v w : Json) (hv : lookupKey kvs k = some v) :
    lookupKey (setKey kvs k w) k = some w := by
  induction kvs with
  | nil => simp [lookupKey] at hv
  | cons p kvs ih =>
      by_cases h : p.1 = k
      · simp [setKey, lookupKey, h]
      · rw [show (p :: kvs : List (String × Json)) = (p.1, p.2) :: kvs from rfl,
          lookupKey] at hv
        simp only [h, if_false] at hv
        simp [setKey, lookupKey, h, ih hv]

/-- Original `end` behaviour used in concrete scenarios: one external side effect
`Ev.ext 0` and return value 7. -/
def endZero : OrigEnd := ⟨fun _ => ([0], 7)⟩

/-- Concrete wrapped response used in concrete scenarios: status code 200 and an
`end` slot already wrapped with a present transaction. -/
def resZero : ServerResponse := ⟨200, EndSlot.wrapped (some ()) endZero⟩

/-- C1: with a transaction present, `finishTransaction` schedules
`transaction.finish()` through `setImmediate`, so however the queue already
looks it runs strictly after every callback that was queued when
`finishTransaction` was invoked, and the returned promise is not resolved
synchronously but only after that deferred callback has run `complete()` and
returned (`resolveFinish` comes right after `complete`). -/
theorem finishTransaction_defers_complete (queued : List Job) (code : Nat) :
    runLoop (queued ++ (finishTransaction (some ()) code).pending)
        = runLoop queued ++ [Ev.complete, Ev.resolveFinish] ∧
      (finishTransaction (some ()) code).resolvedSync = false := by
  constructor
  · rw [runLoop_append]
    rfl
  · rfl

/-- C2 counterexample: invoking the wrapped `end` of a concrete response does not
mark the transaction complete before the original completion operation runs and
does not flush first either: the external effect `Ev.ext 0` of the original
`end` comes first, `complete` only happens on the next loop turn, and no
`flush(2000)` call occurs in the run at all. -/
theorem sentryWrappedEnd_not_complete_before_orig :
    fullCallTrace resZero []
        = [Ev.setStatus 200, Ev.ext 0, Ev.complete, Ev.resolveFinish] ∧
      occursBefore Ev.complete (Ev.ext 0) (fullCallTrace resZero []) = false ∧
      occursBefore (Ev.flushCall 2000) (Ev.ext 0) (fullCallTrace resZero []) = false ∧
      Ev.flushCall 2000 ∉ fullCallTrace resZero [] := by
  refine ⟨rfl, rfl, rfl, ?_⟩
  decide

/-- C2 (amended): when the wrapped `end` is invoked, the status of the transaction
is recorded synchronously before the original completion operation runs, the
original completion operation then runs, and marking the transaction complete is
deferred to the next loop turn, after the original `end`; the wrapped `end`
itself never invokes the flush capability. -/
theorem sentryWrappedEnd_status_first_complete_after (t : Transaction) (e : OrigEnd)
    (code : Nat) (args : List Nat) :
    (sentryWrappedEnd (some t) e code args).trace
        = Ev.setStatus code :: origTrace e args ∧
      runLoop (sentryWrappedEnd (some t) e code args).scheduled
        = [Ev.complete, Ev.resolveFinish] ∧
      ((sentryWrappedEnd (some t) e code args).trace).filter isFlushCall = [] := by
  refine ⟨rfl, rfl, ?_⟩
  have h : (sentryWrappedEnd (some t) e code args).trace
      = Ev.setStatus code :: origTrace e args := rfl
  rw [h, List.filter_cons]
  simp [isFlushCall, origTrace_filter_flushCall e args]

/-- C3: wrapping is idempotent. After the first call of
`autoEndTransactionOnResponseEnd` the Wrap Marker is set on the `end` slot, and
any later call, with any transaction, is a no-op that leaves the response (and
in particular its `end` slot) unchanged. -/
theorem autoEndTransactionOnResponseEnd_idempotent (t t' : Option Transaction)
    (res : ServerResponse) :
    autoEndTransactionOnResponseEnd t' (autoEndTransactionOnResponseEnd t res)
        = autoEndTransactionOnResponseEnd t res ∧
      ((autoEndTransactionOnResponseEnd t res).resEnd).isWrapped = true := by
  cases res with
  | mk code slot =>
      cases slot <;>
        simp [autoEndTransactionOnResponseEnd, fill, EndSlot.isWrapped]

/-- C4: calling the wrapped `end` returns exactly the value the unwrapped original
returns on the same arguments; the synchronous events are those of the original
preceded only by the synchronous prefix of the background sequence, that prefix
consists of tracing events only, and after discarding tracing events the
synchronous side effects of wrapped and unwrapped calls coincide. -/
theorem sentryWrappedEnd_preserves_original (t : Transaction) (e : OrigEnd)
    (code : Nat) (args : List Nat) :
    (callEnd ⟨code, EndSlot.wrapped (some t) e⟩ args).ret
        = (callEnd ⟨code, EndSlot.plain e⟩ args).ret ∧
      (callEnd ⟨code, EndSlot.wrapped (some t) e⟩ args).trace
        = (finishTransaction (some t) code).syncTrace
            ++ (callEnd ⟨code, EndSlot.plain e⟩ args).trace ∧
      ((finishTransaction (some t) code).syncTrace).all isTracingEv = true ∧
      ((callEnd ⟨code, EndSlot.wrapped (some t) e⟩ args).trace).filter
          (fun ev => !(isTracingEv ev))
        = ((callEnd ⟨code, EndSlot.plain e⟩ args).trace).filter
            (fun ev => !(isTracingEv ev)) := by
  refine ⟨rfl, rfl, rfl, ?_⟩
  have h : (callEnd ⟨code, EndSlot.wrapped (some t) e⟩ args).trace
      = Ev.setStatus code :: origTrace e args := rfl
  have h2 : (callEnd ⟨code, EndSlot.plain e⟩ args).trace = origTrace e args := rfl
  rw [h, h2, List.filter_cons]
  simp [isTracingEv]

/-- C5: the replacement `end` installed by the wrap operation triggers the
background sequence without waiting for it (only its synchronous prefix runs and
its `setImmediate` callback is left pending), then invokes the original `end`
with the original arguments and synchronously returns its result; `complete`
has not happened when the call returns, it only happens when the pending
callback is drained on a later loop turn. -/
theorem sentryWrappedEnd_returns_before_background (t : Transaction) (e : OrigEnd)
    (code : Nat) (args : List Nat) :
    sentryWrappedEnd (some t) e code args
        = ⟨Ev.setStatus code :: origTrace e args, (e.run args).2, [Job.finishJob]⟩ ∧
      runLoop (sentryWrappedEnd (some t) e code args).scheduled
        = [Ev.complete, Ev.resolveFinish] ∧
      Ev.complete ∉ (sentryWrappedEnd (some t) e code args).trace := by
  refine ⟨rfl, rfl, ?_⟩
  have h : (sentryWrappedEnd (some t) e code args).trace
      = Ev.setStatus code :: origTrace e args := rfl
  rw [h]
  intro hmem
  rcases List.mem_cons.mp hmem with h1 | h2
  · exact Ev.noConfusion h1
  · exact origTrace_not_mem_complete e args h2

/-- C6: `finishTransaction` records the status code of the response through
`setStatus` strictly before `complete()` is called; in particular, on a response
with status code 404 the event `setStatus 404` precedes `complete`. -/
theorem finishTransaction_setStatus_before_complete (code : Nat) :
    finishTraceFull (some ()) code
        = [Ev.setStatus code, Ev.complete, Ev.resolveFinish] ∧
      occursBefore (Ev.setStatus 404) Ev.complete (finishTraceFull (some ()) 404)
        = true := by
  exact ⟨rfl, by decide⟩

/-- C7: whatever the external flush capability does, including rejecting or timing
out, `flushQueue` resolves rather than rejecting: its outcome is always
`Except.ok ()`, and with the debug flag off it logs nothing at all, so failures
are swallowed and at most logged under the debug flag. -/
theorem flushQueue_never_rejects (debug : Bool) (cap : FlushOutcome) :
    (flushQueue debug cap).2 = Except.ok () ∧
      ((flushQueue false cap).1).filter isLog = [] := by
  cases cap <;> cases debug <;> simp [flushQueue, isLog]

/-- C8: with the tracing handle absent, `finishTransaction` resolves immediately
with no event and no scheduled callback, and the wrapped `end` behaves exactly
like the original: same events, same return value, nothing scheduled, and every
event of the call is a non-tracing external one, so neither `setStatus` nor
`complete` is ever called. -/
theorem finishTransaction_absent_noop (code : Nat) (e : OrigEnd) (args : List Nat) :
    finishTransaction none code = ⟨[], [], true⟩ ∧
      sentryWrappedEnd none e code args
        = ⟨origTrace e args, (e.run args).2, []⟩ ∧
      ((sentryWrappedEnd none e code args).trace).all
          (fun ev => !(isTracingEv ev)) = true := by
  refine ⟨rfl, rfl, ?_⟩
  have h : (sentryWrappedEnd none e code args).trace = origTrace e args := rfl
  rw [h]
  exact origTrace_all_not_tracing e args

/-- C9: every run of `flushQueue`, for any debug flag and any behaviour of the
flush capability, invokes the external flush capability exactly once, and that
one invocation carries the fixed timeout 2000. -/
theorem flushQueue_flushes_once_2000 (debug : Bool) (cap : FlushOutcome) :
    ((flushQueue debug cap).1).filter isFlushCall = [Ev.flushCall 2000] := by
  cases cap <;> cases debug <;> rfl

/-- C10: whenever the use-ts-3_8 script successfully rewrites the loaded
configuration, the written configuration differs from the loaded one in exactly
one point: the `compilerOptions` object loses its `noUncheckedIndexedAccess`
key, every other `compilerOptions` entry keeps its value, and every other
top-level entry of the configuration is unchanged. -/
theorem useTs38Rewrite_only_removes_flag (kvs co : List (String × Json))
    (h : lookupKey kvs "compilerOptions" = some (Json.obj co)) :
    useTs38Rewrite (Json.obj kvs)
        = some (Json.obj (setKey kvs "compilerOptions"
            (Json.obj (deleteKey co "noUncheckedIndexedAccess")))) ∧
      lookupKey (deleteKey co "noUncheckedIndexedAccess")
          "noUncheckedIndexedAccess" = none ∧
      (∀ k, k ≠ "noUncheckedIndexedAccess" →
        lookupKey (deleteKey co "noUncheckedIndexedAccess") k = lookupKey co k) ∧
      lookupKey (setKey kvs "compilerOptions"
            (Json.obj (deleteKey co "noUncheckedIndexedAccess")))
          "compilerOptions"
        = some (Json.obj (deleteKey co "noUncheckedIndexedAccess")) ∧
      (∀ k, k ≠ "compilerOptions" →
        lookupKey (setKey kvs "compilerOptions"
            (Json.obj (deleteKey co "noUncheckedIndexedAccess"))) k
          = lookupKey kvs k) := by
  refine ⟨?_, lookupKey_deleteKey_self co _, ?_, ?_, ?_⟩
  · simp [useTs38Rewrite, h]
  · exact fun k hk => lookupKey_deleteKey_ne co _ k hk
  · exact lookupKey_setKey_self kvs _ (Json.obj co) _ h
  · exact fun k hk => lookupKey_setKey_ne kvs _ k _ hk

/-- Concrete `compilerOptions` object used to witness the rewrite theorem. -/
def compilerOptionsZero : List (String × Json) :=
  [("strict", Json.bool true), ("noUncheckedIndexedAccess", Json.bool true)]

/-- Concrete loaded tsconfig used to witness the rewrite theorem. -/
def tsconfigZero : List (String × Json) :=
  [("include", Json.arr [Json.str "src"]),
   ("compilerOptions", Json.obj compilerOptionsZero)]

/-- Witness for C10: the concrete tsconfig satisfies the hypothesis of the rewrite
theorem, and instantiating the theorem there shows the rewritten
`compilerOptions` object no longer binds `noUncheckedIndexedAccess`. -/
theorem useTs38Rewrite_only_removes_flag_witness :
    lookupKey tsconfigZero "compilerOptions" = some (Json.obj compilerOptionsZero) ∧
      lookupKey (deleteKey compilerOptionsZero "noUncheckedIndexedAccess")
          "noUncheckedIndexedAccess" = none :=
  ⟨rfl,
    (useTs38Rewrite_only_removes_flag tsconfigZero compilerOptionsZero rfl).2.1⟩
